import Mathlib

set_option maxRecDepth 8000

/-!
Shallow embedding of the contract-call codec and multi-network dispatch core
of the n8n-nodes-api3 package (files `nodes/Api3/transport/index.ts`,
`nodes/Api3/utils/helpers.ts`, `nodes/Api3/constants.ts`, and the operation
handlers under `nodes/Api3/actions/`), together with theorems settling the
frozen specification claims.

Modelling conventions:
* TS strings are `List Char`; `strChars` converts a Lean string literal.
* TS `bigint` is `Int` (arbitrary precision, `/` and `%` truncate toward
  zero, which is `Int.tdiv` / `Int.tmod`).
* A TS function that can throw is modelled with `Option` / `Except`; `none`
  or `Except.error` is the thrown exception.
-/

namespace Api3

/-- Character list of a Lean string literal; the model of a TS string. -/
def strChars (s : String) : List Char := s.data

/-- JS `s.slice(a, b)` (for `0 ≤ a ≤ b`): characters from index `a` up to
index `b` exclusive, clamped to the length of `s`. -/
def jsSlice (s : List Char) (a b : Nat) : List Char := (s.take b).drop a

/-- JS `s.padStart(n, c)`: prepends copies of `c` until length `n`;
returns `s` unchanged when `s` is already at least `n` long. -/
def padStart (s : List Char) (n : Nat) (c : Char) : List Char :=
  List.replicate (n - s.length) c ++ s

/-- JS `s.padEnd(n, c)`: appends copies of `c` until length `n`. -/
def padEnd (s : List Char) (n : Nat) (c : Char) : List Char :=
  s ++ List.replicate (n - s.length) c

/-- JS `s.startsWith(0x)` as used by the codec. -/
def starts0x : List Char → Bool
  | '0' :: 'x' :: _ => true
  | _ => false

/-- The `0x`-stripping step shared by all decoders:
`hex.startsWith(0x) ? hex.slice(2) : hex`. -/
def strip0x (s : List Char) : List Char := if starts0x s then s.drop 2 else s

/-- Fuel-driven base-`b` digit extraction (least-significant digit first).
With fuel at least `n` this agrees with `Nat.digits b n` for `2 ≤ b`; the
structural recursion keeps it kernel-reducible for concrete evaluation. -/
def toDigitsAux (b : Nat) : Nat → Nat → List Nat
  | _, 0 => []
  | 0, _ + 1 => []
  | fuel + 1, n + 1 => ((n + 1) % b) :: toDigitsAux b fuel ((n + 1) / b)

/-- Base-`b` digits of `n`, least-significant first. -/
def natDigits (b n : Nat) : List Nat := toDigitsAux b n n

/-- Decimal or hexadecimal rendering of a natural number exactly as JS
`BigInt.prototype.toString(radix)` produces it: most-significant digit
first, lowercase letter digits, and zero rendered as the single digit 0.
The digit list is least-significant first, hence the `reverse`. -/
def natToChars (b n : Nat) : List Char :=
  if n = 0 then ['0'] else (natDigits b n).reverse.map Nat.digitChar

/-- JS `BigInt.prototype.toString()` (base 10) including the sign. -/
def intDecChars (i : Int) : List Char :=
  if i < 0 then '-' :: natToChars 10 i.natAbs else natToChars 10 i.toNat

/-- JS `BigInt.prototype.toString(16)` including the sign. -/
def intHexChars (i : Int) : List Char :=
  if i < 0 then '-' :: natToChars 16 i.natAbs else natToChars 16 i.toNat

/-- Value of a decimal digit character, `none` for any other character. -/
def decVal (c : Char) : Option Nat :=
  if 48 ≤ c.toNat ∧ c.toNat ≤ 57 then some (c.toNat - 48) else none

/-- Value of a hexadecimal digit character in either letter case,
as accepted by JS `BigInt` hex literals. -/
def hexVal (c : Char) : Option Nat :=
  if 48 ≤ c.toNat ∧ c.toNat ≤ 57 then some (c.toNat - 48)
  else if 97 ≤ c.toNat ∧ c.toNat ≤ 102 then some (c.toNat - 87)
  else if 65 ≤ c.toNat ∧ c.toNat ≤ 70 then some (c.toNat - 55)
  else none

/-- Accumulating base-`b` digit-string parser; fails on the first character
that is not a digit according to `dv`. -/
def parseAcc (b : Nat) (dv : Char → Option Nat) : Nat → List Char → Option Nat
  | a, [] => some a
  | a, c :: cs =>
    match dv c with
    | some d => parseAcc b dv (b * a + d) cs
    | none => none

/-- JS `BigInt(str)` on the decimal numerals this codec produces and
consumes: an optional minus sign followed by decimal digits. The empty
string converts to 0 (as in JS); a bare minus sign or a non-digit
character throws (`none`). -/
def jsBigIntDec (s : List Char) : Option Int :=
  match s with
  | [] => some 0
  | c :: rest =>
    if c = '-' then
      if rest = [] then none
      else (parseAcc 10 decVal 0 rest).map (fun n => -(Int.ofNat n))
    else (parseAcc 10 decVal 0 (c :: rest)).map Int.ofNat

/-- JS `BigInt(0x ++ s)`: hexadecimal digits after the prefix. An empty
digit string or a non-hex character throws (`none`). -/
def jsBigIntHex (s : List Char) : Option Nat :=
  if s = [] then none else parseAcc 16 hexVal 0 s

/-- Association-list lookup by exact key equality, modelling the TS object
property access `precomputed[input]`. -/
def lookupSelector : List (List Char × List Char) → List Char → Option (List Char)
  | [], _ => none
  | (k, v) :: rest, input => if input = k then some v else lookupSelector rest input

/-- The precomputed selector table from `simpleKeccak256` in
`transport/index.ts`, verbatim. -/
def precomputedSelectors : List (List Char × List Char) :=
  [ (strChars ("readDataFeedWithDapiName(bytes32)"), strChars ("0x82a0cf08")),
    (strChars ("readDataFeedWithId(bytes32)"), strChars ("0x47bd3e9e")),
    (strChars ("dapiNameToDataFeedId(bytes32)"), strChars ("0x6cc5f9b0")),
    (strChars ("balanceOf(address)"), strChars ("0x70a08231")),
    (strChars ("totalSupply()"), strChars ("0x18160ddd")),
    (strChars ("transfer(address,uint256)"), strChars ("0xa9059cbb")),
    (strChars ("userStake(address)"), strChars ("0x66666aa9")),
    (strChars ("totalStake()"), strChars ("0x8b0e9f3f")),
    (strChars ("stake(uint256)"), strChars ("0xa694fc3a")),
    (strChars ("unstake()"), strChars ("0x2def6620")),
    (strChars ("apr()"), strChars ("0x37965dbe")),
    (strChars ("getUserReward(address)"), strChars ("0x44fa9a7a")),
    (strChars ("claimReward()"), strChars ("0xb88a802f")) ]

/-- From `transport/index.ts` `simpleKeccak256`: precomputed table lookup
with the all-zero fallback `precomputed[input] || 0x00000000`. -/
def simpleKeccak256 (input : List Char) : List Char :=
  (lookupSelector precomputedSelectors input).getD (strChars ("0x00000000"))

/-- JS array join with a comma separator, as in `types.join` inside
`getFunctionSelector`. -/
def joinComma : List (List Char) → List Char
  | [] => []
  | [t] => t
  | t :: ts => t ++ ',' :: joinComma ts

/-- The canonical signature string built by `getFunctionSelector`:
name, open paren, comma-joined type tags, close paren. -/
def signatureOf (functionName : List Char) (types : List (List Char)) : List Char :=
  functionName ++ '(' :: (joinComma types ++ [')'])

/-- From `transport/index.ts` `getFunctionSelector`: hash (table) lookup of
the canonical signature, then `hash.slice(0, 10)`. -/
def getFunctionSelector (functionName : List Char) (types : List (List Char)) : List Char :=
  jsSlice (simpleKeccak256 (signatureOf functionName types)) 0 10

/-- UTF-8 bytes of one character, exactly as `Buffer.from(string)` encodes
each code point (1 to 4 bytes). -/
def utf8Bytes (c : Char) : List Nat :=
  let n := c.toNat
  if n < 128 then [n]
  else if n < 2048 then [192 + n / 64, 128 + n % 64]
  else if n < 65536 then [224 + n / 4096, 128 + n / 64 % 64, 128 + n % 64]
  else [240 + n / 262144, 128 + n / 4096 % 64, 128 + n / 64 % 64, 128 + n % 64]

/-- Two lowercase hex characters of one byte value. -/
def byteHex (b : Nat) : List Char := [Nat.digitChar (b / 16 % 16), Nat.digitChar (b % 16)]

/-- `Buffer.from(value).toString(hex)`: lowercase hex of the UTF-8 bytes. -/
def bufferHex (s : List Char) : List Char := ((s.map utf8Bytes).flatten.map byteHex).flatten

/-- From `transport/index.ts` `encodeBytes32`: a value that already starts
with `0x` has the prefix stripped and is right-padded with zeros to 64
chars; a plain string is UTF-8 hex encoded first, then right-padded. -/
def encodeBytes32 (value : List Char) : List Char :=
  if starts0x value then padEnd (value.drop 2) 64 '0'
  else padEnd (bufferHex value) 64 '0'

/-- From `transport/index.ts` `encodeAddress`: strip an optional `0x`,
lowercase, left-zero-pad to 64 chars. -/
def encodeAddress (value : List Char) : List Char :=
  padStart ((if starts0x value then value.drop 2 else value).map Char.toLower) 64 '0'

/-- From `transport/index.ts` `encodeUint256`: `BigInt(value).toString(16)`
left-zero-padded to 64 chars. The numeric value of the argument is taken
directly as an `Int`. -/
def encodeUint256 (value : Int) : List Char :=
  padStart (intHexChars value) 64 '0'

/-- A typed parameter for `encodeParameters`. The source passes parallel
arrays `types[]` / `values[]` and dispatches on the type tag string; the
embedding zips the two arrays into one list of tagged values (the caller
contract requires equal lengths). -/
inductive AbiParam
  | address (s : List Char)
  | uint256 (v : Int)
  | bytes32 (s : List Char)
deriving DecidableEq

/-- Type tag string of a parameter, as it appears in the signature. -/
def AbiParam.tagChars : AbiParam → List Char
  | .address _ => strChars ("address")
  | .uint256 _ => strChars ("uint256")
  | .bytes32 _ => strChars ("bytes32")

/-- Word encoding of one parameter (the if/else chain of
`encodeParameters`). -/
def encodeParam : AbiParam → List Char
  | .address s => encodeAddress s
  | .uint256 v => encodeUint256 v
  | .bytes32 s => encodeBytes32 s

/-- From `transport/index.ts` `encodeParameters`: concatenation of the
per-parameter encodings in order. -/
def encodeParameters (params : List AbiParam) : List Char :=
  (params.map encodeParam).flatten

/-- From `transport/index.ts` `encodeFunctionCall`: selector of the
signature followed by the encoded parameters. -/
def encodeFunctionCall (functionName : List Char) (params : List AbiParam) : List Char :=
  getFunctionSelector functionName (params.map AbiParam.tagChars) ++ encodeParameters params

/-- From `transport/index.ts` `decodeInt224`: strip `0x`, take the first 64
hex chars, reinterpret via `BigInt(0x ++ word)` (plain unsigned
reinterpretation; `none` is the thrown exception on an empty or non-hex
slice). -/
def decodeInt224 (hex : List Char) : Option Int :=
  (jsBigIntHex (jsSlice (strip0x hex) 0 64)).map Int.ofNat

/-- From `transport/index.ts` `decodeUint32`: strip `0x`, slice 64 hex
chars starting at character index `offset`, reinterpret as an unsigned
integer. The surrounding JS `Number()` conversion is kept as the exact
integer (it is exact below 2 to the 53rd). -/
def decodeUint32 (hex : List Char) (offset : Nat) : Option Int :=
  (jsBigIntHex (jsSlice (strip0x hex) offset (offset + 64))).map Int.ofNat

/-- `decodeUint32` at its declared default argument `offset = 64`. -/
def decodeUint32AtDefault (hex : List Char) : Option Int := decodeUint32 hex 64

/-- From `transport/index.ts` `decodeUint256`: strip `0x`, slice 64 hex
chars starting at character index `offset`, reinterpret as unsigned. -/
def decodeUint256 (hex : List Char) (offset : Nat) : Option Int :=
  (jsBigIntHex (jsSlice (strip0x hex) offset (offset + 64))).map Int.ofNat

/-- `decodeUint256` at its declared default argument `offset = 0`. -/
def decodeUint256AtDefault (hex : List Char) : Option Int := decodeUint256 hex 0

/-- From `transport/index.ts` `formatValue`: truncating bigint division and
remainder by `10 ** decimals` (exact for `decimals ≤ 18`, the range used),
remainder rendered and left-zero-padded to `decimals` chars, joined with a
dot. JS bigint `/` and `%` truncate toward zero, hence `tdiv` / `tmod`. -/
def formatValue (value : Int) (decimals : Nat) : List Char :=
  let divisor : Int := (10 : Int) ^ decimals
  let integerPart := value.tdiv divisor
  let fractionalPart := value.tmod divisor
  let fractionalStr := padStart (intDecChars fractionalPart) decimals '0'
  intDecChars integerPart ++ '.' :: fractionalStr

/-- JS `s.replace(zero-run-at-end, empty)`: drop trailing zero chars. -/
def trimEndZeros (s : List Char) : List Char :=
  (s.reverse.dropWhile (fun c => c = '0')).reverse

/-- From `utils/helpers.ts` `weiToEther`: divide by 10 to the 18th, render
the remainder padded to 18 digits, trim trailing zeros (falling back to a
single zero char), and omit the fractional part entirely when the padded
remainder string is 18 zero chars. -/
def weiToEther (wei : Int) : List Char :=
  let divisor : Int := (10 : Int) ^ 18
  let integerPart := wei.tdiv divisor
  let fractionalPart := wei.tmod divisor
  let fractionalStr := padStart (intDecChars fractionalPart) 18 '0'
  let trimmed := if trimEndZeros fractionalStr = [] then ['0'] else trimEndZeros fractionalStr
  if fractionalStr = List.replicate 18 '0' then intDecChars integerPart
  else intDecChars integerPart ++ '.' :: trimmed

/-- From `utils/helpers.ts` `formatWithDecimals`: like `formatValue` but
returns the bare integer string when the remainder is zero and trims
trailing zeros from the fractional digits otherwise. -/
def formatWithDecimals (value : Int) (decimals : Nat) : List Char :=
  let divisor : Int := (10 : Int) ^ decimals
  let integerPart := value.tdiv divisor
  let fractionalPart := value.tmod divisor
  if fractionalPart = 0 then intDecChars integerPart
  else
    let fractionalStr := padStart (intDecChars fractionalPart) decimals '0'
    intDecChars integerPart ++ '.' :: trimEndZeros fractionalStr

/-- JS `value.split(sep)` for a one-character separator: maximal segments
between separator characters, with empty segments preserved. -/
def jsSplit (sep : Char) : List Char → List (List Char)
  | [] => [[]]
  | c :: cs =>
    if c = sep then [] :: jsSplit sep cs
    else
      match jsSplit sep cs with
      | [] => [[c]]
      | p :: ps => (c :: p) :: ps

/-- Splitting on the decimal dot, as the numeric codec does. -/
def splitOnDot (s : List Char) : List (List Char) := jsSplit '.' s

/-- JS `parts[i] || zeroString`: the segment at index `i`, replaced by the
one-char string 0 when missing or empty (both are falsy). -/
def jsIndexOrZero (parts : List (List Char)) (i : Nat) : List Char :=
  match parts.get? i with
  | some s => if s = [] then ['0'] else s
  | none => ['0']

/-- From `utils/helpers.ts` `parseWithDecimals`: split on the dot, take the
integer and fractional segments with the `|| zero` fallbacks, right-pad or
truncate the fractional segment to exactly `decimals` digits, concatenate
and parse with `BigInt`. -/
def parseWithDecimals (value : List Char) (decimals : Nat) : Option Int :=
  let parts := splitOnDot value
  let integerPart := jsIndexOrZero parts 0
  let fractionalPart := jsSlice (padEnd (jsIndexOrZero parts 1) decimals '0') 0 decimals
  jsBigIntDec (integerPart ++ fractionalPart)

/-- From `utils/helpers.ts` `etherToWei`: split on the dot, pad or truncate
the fractional segment to 18 digits, concatenate, parse as `BigInt`. -/
def etherToWei (ether : List Char) : Option Int :=
  let parts := splitOnDot ether
  let integerPart := jsIndexOrZero parts 0
  let fractionalPart := jsSlice (padEnd (jsIndexOrZero parts 1) 18 '0') 0 18
  jsBigIntDec (integerPart ++ fractionalPart)

/-- Per-network static configuration record from `constants.ts`. The three
address fields present only on the ethereum entry are `Option`. -/
structure NetworkConfig where
  chainId : Nat
  displayName : List Char
  explorerUrl : List Char
  dapiServerAddress : List Char
  api3TokenAddress : Option (List Char)
  stakingPoolAddress : Option (List Char)
  governanceAddress : Option (List Char)
deriving DecidableEq

/-- The dAPI server contract address shared verbatim by every entry of
`NETWORK_CONFIGS` in `constants.ts`. -/
def dapiServerAddr : List Char :=
  strChars ("0x3dEC619dc529363767dEe9E71d8dD1A5bc270D76")

/-- Builder for the non-ethereum entries of `NETWORK_CONFIGS`, which all
consist of a chain id, display name, explorer URL and the shared dAPI
server address, with no token, staking or governance addresses. -/
def mkNet (chainId : Nat) (displayName explorerUrl : String) : NetworkConfig :=
  ⟨chainId, strChars displayName, strChars explorerUrl, dapiServerAddr, none, none, none⟩

/-- The ethereum entry of `NETWORK_CONFIGS` (the only entry carrying token,
staking-pool and governance addresses). -/
def ethereumConfig : NetworkConfig :=
  { chainId := 1
    displayName := strChars ("Ethereum Mainnet")
    explorerUrl := strChars ("https://etherscan.io")
    dapiServerAddress := dapiServerAddr
    api3TokenAddress := some (strChars ("0x0b38210ea11411557c13457D4dA7dC6ea731B88a"))
    stakingPoolAddress := some (strChars ("0x6dd655f10d4b9E242aE186D9050B68F725c76d76"))
    governanceAddress := some (strChars ("0x1d7573de8b3cF1c5B0e16be54a0E20a78B8e5e6e4")) }

/-- The `NETWORK_CONFIGS` record of `constants.ts` as a keyed lookup: the
20 network identifiers map to their configs, everything else to `none`
(an absent object property). -/
def NETWORK_CONFIGS (network : List Char) : Option NetworkConfig :=
  if network = strChars ("ethereum") then some ethereumConfig
  else if network = strChars ("polygon") then
    some (mkNet 137 ("Polygon") ("https://polygonscan.com"))
  else if network = strChars ("arbitrum") then
    some (mkNet 42161 ("Arbitrum One") ("https://arbiscan.io"))
  else if network = strChars ("arbitrum-nova") then
    some (mkNet 42170 ("Arbitrum Nova") ("https://nova.arbiscan.io"))
  else if network = strChars ("optimism") then
    some (mkNet 10 ("Optimism") ("https://optimistic.etherscan.io"))
  else if network = strChars ("avalanche") then
    some (mkNet 43114 ("Avalanche C-Chain") ("https://snowtrace.io"))
  else if network = strChars ("bsc") then
    some (mkNet 56 ("BNB Smart Chain") ("https://bscscan.com"))
  else if network = strChars ("base") then
    some (mkNet 8453 ("Base") ("https://basescan.org"))
  else if network = strChars ("gnosis") then
    some (mkNet 100 ("Gnosis") ("https://gnosisscan.io"))
  else if network = strChars ("fantom") then
    some (mkNet 250 ("Fantom") ("https://ftmscan.com"))
  else if network = strChars ("zksync") then
    some (mkNet 324 ("zkSync Era") ("https://explorer.zksync.io"))
  else if network = strChars ("scroll") then
    some (mkNet 534352 ("Scroll") ("https://scrollscan.com"))
  else if network = strChars ("linea") then
    some (mkNet 59144 ("Linea") ("https://lineascan.build"))
  else if network = strChars ("mantle") then
    some (mkNet 5000 ("Mantle") ("https://explorer.mantle.xyz"))
  else if network = strChars ("moonbeam") then
    some (mkNet 1284 ("Moonbeam") ("https://moonscan.io"))
  else if network = strChars ("moonriver") then
    some (mkNet 1285 ("Moonriver") ("https://moonriver.moonscan.io"))
  else if network = strChars ("celo") then
    some (mkNet 42220 ("Celo") ("https://celoscan.io"))
  else if network = strChars ("goerli") then
    some (mkNet 5 ("Goerli Testnet") ("https://goerli.etherscan.io"))
  else if network = strChars ("sepolia") then
    some (mkNet 11155111 ("Sepolia Testnet") ("https://sepolia.etherscan.io"))
  else if network = strChars ("mumbai") then
    some (mkNet 80001 ("Mumbai Testnet") ("https://mumbai.polygonscan.com"))
  else none

/-- From `transport/index.ts` `getNetworkConfig`: registry lookup that
throws `Unsupported network` for an unrecognized key. -/
def getNetworkConfig (network : List Char) : Except (List Char) NetworkConfig :=
  match NETWORK_CONFIGS network with
  | none => Except.error (strChars ("Unsupported network: ") ++ network)
  | some config => Except.ok config

/-- From `utils/helpers.ts` `supportsDAO`: DAO features are gated on the
network identity string alone. -/
def supportsDAO (network : List Char) : Bool :=
  network == strChars ("ethereum")

/-- From `utils/helpers.ts` `supportsStaking`: staking is gated on the
network identity string alone. -/
def supportsStaking (network : List Char) : Bool :=
  network == strChars ("ethereum")

/-- From `utils/helpers.ts` `getExplorerTxUrl`: empty string for an
unrecognized network, otherwise explorer base URL joined with the tx
path. -/
def getExplorerTxUrl (network txHash : List Char) : List Char :=
  match NETWORK_CONFIGS network with
  | none => []
  | some config => config.explorerUrl ++ strChars ("/tx/") ++ txHash

/-- From `utils/helpers.ts` `getExplorerAddressUrl`: empty string for an
unrecognized network, otherwise explorer base URL joined with the address
path. -/
def getExplorerAddressUrl (network address : List Char) : List Char :=
  match NETWORK_CONFIGS network with
  | none => []
  | some config => config.explorerUrl ++ strChars ("/address/") ++ address

/-- Hexadecimal digit character in either letter case (the regex character
class used by the validators in `utils/helpers.ts`). -/
def isHexDigitChar (c : Char) : Bool :=
  decide (48 ≤ c.toNat ∧ c.toNat ≤ 57) || decide (97 ≤ c.toNat ∧ c.toNat ≤ 102)
    || decide (65 ≤ c.toNat ∧ c.toNat ≤ 70)

/-- From `utils/helpers.ts` `isValidAddress`: the regex match for a
`0x`-prefixed string of exactly 40 hex digits. -/
def isValidAddress (s : List Char) : Bool :=
  starts0x s && (s.drop 2).length == 40 && (s.drop 2).all isHexDigitChar

/-- From `utils/helpers.ts` `isValidBytes32`: the regex match for a
`0x`-prefixed string of exactly 64 hex digits. -/
def isValidBytes32 (s : List Char) : Bool :=
  starts0x s && (s.drop 2).length == 64 && (s.drop 2).all isHexDigitChar

/-- The `DEFAULT_DECIMALS` constant of `constants.ts`. -/
def DEFAULT_DECIMALS : Nat := 18

/-- JS whitespace characters handled by `String.prototype.trim` that can
occur in the comma-separated id lists. -/
def isSpaceChar (c : Char) : Bool :=
  c.toNat == 32 || c.toNat == 9 || c.toNat == 10 || c.toNat == 13

/-- JS `s.trim()`. -/
def jsTrim (s : List Char) : List Char :=
  ((s.dropWhile isSpaceChar).reverse.dropWhile isSpaceChar).reverse

/-- Exceptions and hard failures surfaced by the operation handlers. The
source throws `NodeOperationError` / `NodeApiError` / builtin errors; the
constructor records which failure occurred. -/
inductive OpErr
  | unsupportedNetwork (network : List Char)
  | invalidAddress
  | missingStakingPool
  | rpcError (message : List Char)
  | decodeThrow
  | thrown (message : List Char)
deriving DecidableEq

deriving instance DecidableEq for Except

/-- The RPC boundary as seen by the core: `eth_call` with a target address
and call data either returns the raw hex result string or fails. Every
invocation is one JSON-RPC round trip. -/
structure EthTransport where
  ethCall : List Char → List Char → Except (List Char) (List Char)

/-- From `transport/index.ts` `getTotalStake`: encode `totalStake()`, issue
the call, decode the first word. -/
def getTotalStake (t : EthTransport) (stakingPoolAddress : List Char) : Except OpErr Int :=
  match t.ethCall stakingPoolAddress (encodeFunctionCall (strChars ("totalStake")) []) with
  | .error m => .error (.rpcError m)
  | .ok result =>
    match decodeUint256 result 0 with
    | some v => .ok v
    | none => .error .decodeThrow

/-- From `transport/index.ts` `getUserStake`: encode `userStake(address)`,
issue the call, decode the first word. -/
def getUserStakeRpc (t : EthTransport) (stakingPoolAddress userAddress : List Char) :
    Except OpErr Int :=
  match t.ethCall stakingPoolAddress
      (encodeFunctionCall (strChars ("userStake")) [.address userAddress]) with
  | .error m => .error (.rpcError m)
  | .ok result =>
    match decodeUint256 result 0 with
    | some v => .ok v
    | none => .error .decodeThrow

/-- From `transport/index.ts` `getTokenBalance`: encode
`balanceOf(address)`, issue the call, decode the first word. Errors
propagate: there is no catch in this helper. -/
def getTokenBalance (t : EthTransport) (tokenAddress accountAddress : List Char) :
    Except OpErr Int :=
  match t.ethCall tokenAddress
      (encodeFunctionCall (strChars ("balanceOf")) [.address accountAddress]) with
  | .error m => .error (.rpcError m)
  | .ok result =>
    match decodeUint256 result 0 with
    | some v => .ok v
    | none => .error .decodeThrow

/-- From `transport/index.ts` `readDataFeedById`: registry lookup, encode
`readDataFeedWithId(bytes32)`, issue the call, decode value then
timestamp. -/
def readDataFeedById (t : EthTransport) (network feedId : List Char) :
    Except OpErr (Int × Int) :=
  match getNetworkConfig network with
  | .error m => .error (.thrown m)
  | .ok config =>
    match t.ethCall config.dapiServerAddress
        (encodeFunctionCall (strChars ("readDataFeedWithId")) [.bytes32 feedId]) with
    | .error m => .error (.rpcError m)
    | .ok result =>
      match decodeInt224 result, decodeUint32 result 64 with
      | some v, some ts => .ok (v, ts)
      | _, _ => .error .decodeThrow

/-- Result record of the dAPIs multiple-feed read (`DataFeedValue`). -/
structure DataFeedValue where
  feedId : List Char
  value : List Char
  timestamp : Int
  formattedValue : List Char
  decimals : Nat
deriving DecidableEq

/-- From `actions/dapis` `getMultipleFeedsOperation`: split the id list on
commas, trim, skip invalid ids, and for each remaining id try
`readDataFeedById`; on success push the decoded row, ON FAILURE push a row
whose value, timestamp and formatted value are all zero (the catch branch
of the source). -/
def getMultipleFeedsOperation (t : EthTransport) (network feedIdsStr : List Char) :
    List DataFeedValue :=
  let feedIds := (jsSplit ',' feedIdsStr).map jsTrim
  feedIds.foldl
    (fun results feedId =>
      if isValidBytes32 feedId = false then results
      else
        match readDataFeedById t network feedId with
        | .ok (value, timestamp) =>
          results ++ [⟨feedId, intDecChars value, timestamp,
            formatWithDecimals value DEFAULT_DECIMALS, DEFAULT_DECIMALS⟩]
        | .error _ =>
          results ++ [⟨feedId, ['0'], 0, ['0'], DEFAULT_DECIMALS⟩])
    []

/-- Result record of the staking-info read. The APR percent string is kept
as the raw decoded integer (the JS float `toFixed` rendering of
`Number(aprValue) / 100` is outside the integer model). -/
structure StakingInfo where
  totalStaked : List Char
  aprRaw : Int
  stakingPoolAddress : List Char
  minStakeAmount : List Char
  unstakingPeriod : Nat
  totalStakers : Nat
deriving DecidableEq

/-- From `actions/dao` `getStakingInfoOperation`. Returns the result of the
handler together with the number of RPC round trips it issued. The
network-support guard is the first statement of the source handler. -/
def getStakingInfoOperation (t : EthTransport) (network : List Char) :
    Except OpErr StakingInfo × Nat :=
  if supportsStaking network = false then (.error (.unsupportedNetwork network), 0)
  else
    match ethereumConfig.stakingPoolAddress with
    | none => (.error .missingStakingPool, 0)
    | some pool =>
      match getTotalStake t pool with
      | .error e => (.error e, 1)
      | .ok totalStaked =>
        let apr : Int :=
          match t.ethCall pool (encodeFunctionCall (strChars ("apr")) []) with
          | .error _ => 0
          | .ok r =>
            match decodeUint256 r 0 with
            | some v => v
            | none => 0
        (.ok ⟨weiToEther totalStaked, apr, pool, ['1'], 604800, 0⟩, 2)

/-- Result record of the user-stake read. -/
structure UserStake where
  address : List Char
  stakedAmount : List Char
  shares : List Char
  pendingRewards : List Char
  lastStakeTimestamp : Nat
  unstakingAmount : List Char
  unstakingTimestamp : Nat
  votingPower : List Char
deriving DecidableEq

/-- From `actions/dao` `getUserStakeOperation`: address validation, then
the network-support guard, then the staking-pool reads (the pending-reward
read is wrapped in a catch that degrades to zero). -/
def getUserStakeOperation (t : EthTransport) (network userAddress : List Char) :
    Except OpErr UserStake × Nat :=
  if isValidAddress userAddress = false then (.error .invalidAddress, 0)
  else if supportsStaking network = false then (.error (.unsupportedNetwork network), 0)
  else
    match ethereumConfig.stakingPoolAddress with
    | none => (.error .missingStakingPool, 0)
    | some pool =>
      match getUserStakeRpc t pool userAddress with
      | .error e => (.error e, 1)
      | .ok staked =>
        let pendingRewards : Int :=
          match t.ethCall pool
              (encodeFunctionCall (strChars ("getUserReward")) [.address userAddress]) with
          | .error _ => 0
          | .ok r =>
            match decodeUint256 r 0 with
            | some v => v
            | none => 0
        (.ok ⟨userAddress, weiToEther staked, weiToEther staked,
          weiToEther pendingRewards, 0, ['0'], 0, weiToEther staked⟩, 2)

/-- Result record of the rewards read. -/
structure RewardsInfo where
  address : List Char
  pendingRewards : List Char
  estimatedApr : List Char
deriving DecidableEq

/-- From `actions/dao` `getRewardsOperation`: address validation, the
network-support guard, then one reward read wrapped in a degrading
catch. -/
def getRewardsOperation (t : EthTransport) (network userAddress : List Char) :
    Except OpErr RewardsInfo × Nat :=
  if isValidAddress userAddress = false then (.error .invalidAddress, 0)
  else if supportsStaking network = false then (.error (.unsupportedNetwork network), 0)
  else
    match ethereumConfig.stakingPoolAddress with
    | none => (.error .missingStakingPool, 0)
    | some pool =>
      let pendingRewards : Int :=
        match t.ethCall pool
            (encodeFunctionCall (strChars ("getUserReward")) [.address userAddress]) with
        | .error _ => 0
        | .ok r =>
          match decodeUint256 r 0 with
          | some v => v
          | none => 0
      (.ok ⟨userAddress, weiToEther pendingRewards, strChars ("0%")⟩, 1)

/-- From `actions/dao` `getAPROperation`. The payload is the raw decoded
APR integer (zero when the read fails); the float APY computation of the
source is display-only and outside the integer model. -/
def getAPROperation (t : EthTransport) (network : List Char) : Except OpErr Int × Nat :=
  if supportsStaking network = false then (.error (.unsupportedNetwork network), 0)
  else
    match ethereumConfig.stakingPoolAddress with
    | none => (.error .missingStakingPool, 0)
    | some pool =>
      let apr : Int :=
        match t.ethCall pool (encodeFunctionCall (strChars ("apr")) []) with
        | .error _ => 0
        | .ok r =>
          match decodeUint256 r 0 with
          | some v => v
          | none => 0
      (.ok apr, 1)

/-- Proposal status values of the governance model. -/
inductive PStatus
  | pending
  | active
  | succeeded
  | defeated
  | executed
  | cancelled
deriving DecidableEq

/-- Status string of a proposal as compared by the filtering code. -/
def PStatus.chars : PStatus → List Char
  | .pending => strChars ("pending")
  | .active => strChars ("active")
  | .succeeded => strChars ("succeeded")
  | .defeated => strChars ("defeated")
  | .executed => strChars ("executed")
  | .cancelled => strChars ("cancelled")

/-- From `actions/governance` `mapProposalStatus`: lowercase, then map the
known status strings, defaulting to pending. -/
def mapProposalStatus (status : List Char) : PStatus :=
  let normalized := status.map Char.toLower
  if normalized = strChars ("pending") then .pending
  else if normalized = strChars ("active") then .active
  else if normalized = strChars ("succeeded") then .succeeded
  else if normalized = strChars ("defeated") then .defeated
  else if normalized = strChars ("executed") then .executed
  else if normalized = strChars ("cancelled") ∨ normalized = strChars ("canceled") then .cancelled
  else .pending

/-- A governance proposal record as returned by the handlers. -/
structure Proposal where
  proposalId : List Char
  title : List Char
  description : List Char
  proposer : List Char
  startTime : Int
  endTime : Int
  forVotes : List Char
  againstVotes : List Char
  abstainVotes : List Char
  status : PStatus
deriving DecidableEq

/-- A raw proposal object as delivered by the REST API before mapping. -/
structure RawProposal where
  id : List Char
  title : List Char
  description : List Char
  proposer : List Char
  startTime : Int
  endTime : Int
  forVotes : List Char
  againstVotes : List Char
  abstainVotes : List Char
  status : List Char
deriving DecidableEq

/-- The all-zero placeholder proposer address used by the handlers. -/
def zeroAddress : List Char :=
  strChars ("0x0000000000000000000000000000000000000000")

/-- From `actions/governance` `generateSampleProposals`: `count` sample
rows built around the current timestamp. -/
def generateSampleProposals (now : Int) (count : Nat) : List Proposal :=
  (List.range count).map (fun j =>
    let i := j + 1
    ⟨natToChars 10 i, strChars ("Sample Proposal #") ++ natToChars 10 i,
      strChars ("This is a sample proposal. Real data requires API3 DAO API access."),
      zeroAddress, now - 86400 * i, now + 86400 * (7 - (i : Int)),
      ['0'], ['0'], ['0'], if i % 2 = 0 then .active else .pending⟩)

/-- From `actions/governance` `getProposalsOperation`: the DAO-support
guard first; then one REST request whose failure degrades to sample data;
then status filtering and the limit slice. `apiResult` is the outcome of
the single REST request (`some` rows, a response without a proposals
field, or a transport failure). -/
def getProposalsOperation (apiResult : Except (List Char) (Option (List RawProposal)))
    (now : Int) (network status : List Char) (limit : Nat) :
    Except OpErr (List Proposal) × Nat :=
  if supportsDAO network = false then (.error (.unsupportedNetwork network), 0)
  else
    let proposals : List Proposal :=
      match apiResult with
      | .ok (some ps) =>
        ps.map (fun p =>
          ⟨p.id, p.title, p.description, p.proposer, p.startTime, p.endTime,
            p.forVotes, p.againstVotes,
            (if p.abstainVotes = [] then ['0'] else p.abstainVotes),
            mapProposalStatus p.status⟩)
      | .ok none => []
      | .error _ => generateSampleProposals now limit
    let filtered :=
      if status = strChars ("all") then proposals
      else proposals.filter (fun p => p.status.chars = status)
    (.ok (filtered.take limit), 1)

/-- From `actions/governance` `getProposalOperation`: the DAO-support guard
first; then the registry lookup, one REST request, and on its failure an
optional on-chain fallback read whose own failure degrades to a
placeholder row. -/
def getProposalOperation (apiResult : Except (List Char) RawProposal) (t : EthTransport)
    (network proposalId : List Char) : Except OpErr Proposal × Nat :=
  if supportsDAO network = false then (.error (.unsupportedNetwork network), 0)
  else
    match getNetworkConfig network with
    | .error m => (.error (.thrown m), 0)
    | .ok config =>
      match apiResult with
      | .ok p =>
        (.ok ⟨p.id, p.title, p.description, p.proposer, p.startTime, p.endTime,
          p.forVotes, p.againstVotes,
          (if p.abstainVotes = [] then ['0'] else p.abstainVotes),
          mapProposalStatus p.status⟩, 1)
      | .error _ =>
        let placeholder : Proposal :=
          ⟨proposalId, strChars ("Proposal #") ++ proposalId,
            strChars ("Unable to fetch proposal details"), zeroAddress,
            0, 0, ['0'], ['0'], ['0'], .pending⟩
        match config.governanceAddress with
        | none => (.ok placeholder, 1)
        | some gov =>
          match jsBigIntDec proposalId with
          | none => (.error (.thrown (strChars ("Failed to get proposal"))), 1)
          | some pid =>
            match t.ethCall gov
                (encodeFunctionCall (strChars ("proposal")) [.uint256 pid]) with
            | .error _ => (.ok placeholder, 2)
            | .ok result =>
              match decodeUint256 result 0, decodeUint256 result 64 with
              | some forVotes, some againstVotes =>
                (.ok ⟨proposalId, strChars ("Proposal #") ++ proposalId,
                  strChars ("On-chain proposal data"), zeroAddress, 0, 0,
                  formatWithDecimals forVotes 18, formatWithDecimals againstVotes 18,
                  ['0'], .active⟩, 2)
              | _, _ => (.ok placeholder, 2)

/-- A vote record as delivered by the REST API (fields beyond the id are
not consumed by the handler). -/
structure VoteRecord where
  proposalId : List Char
  support : Bool
deriving DecidableEq

/-- Result record of the vote-record read. -/
structure VoteSummary where
  userAddress : List Char
  totalVotes : Nat
  votes : List VoteRecord
  network : List Char
deriving DecidableEq

/-- From `actions/governance` `getVoteRecordOperation`: the DAO-support
guard first; then one REST request whose failure (or missing votes field)
degrades to an empty list. -/
def getVoteRecordOperation (apiResult : Except (List Char) (Option (List VoteRecord)))
    (network userAddress : List Char) : Except OpErr VoteSummary × Nat :=
  if supportsDAO network = false then (.error (.unsupportedNetwork network), 0)
  else
    let votes : List VoteRecord :=
      match apiResult with
      | .ok (some vs) => vs
      | .ok none => []
      | .error _ => []
    (.ok ⟨userAddress, votes.length, votes, network⟩, 1)

/-- Result record of the treasury read. -/
structure Treasury where
  balance : List Char
  api3Balance : List Char
  ethBalance : List Char
  totalAllocated : List Char
  totalSpent : List Char
  recentTransactions : List (List Char)
deriving DecidableEq

/-- From `actions/governance` `getTreasuryOperation`: the DAO-support guard
first; then the registry lookup and, when both governance and token
addresses are present, one balance read wrapped in a degrading catch. -/
def getTreasuryOperation (t : EthTransport) (network : List Char) :
    Except OpErr Treasury × Nat :=
  if supportsDAO network = false then (.error (.unsupportedNetwork network), 0)
  else
    match getNetworkConfig network with
    | .error m => (.error (.thrown m), 0)
    | .ok config =>
      match config.governanceAddress, config.api3TokenAddress with
      | some gov, some token =>
        let api3Balance : List Char :=
          match t.ethCall token
              (encodeFunctionCall (strChars ("balanceOf")) [.address gov]) with
          | .error _ => ['0']
          | .ok r =>
            match decodeUint256 r 0 with
            | some v => formatWithDecimals v 18
            | none => ['0']
        (.ok ⟨api3Balance, api3Balance, ['0'], ['0'], ['0'], []⟩, 1)
      | _, _ => (.ok ⟨['0'], ['0'], ['0'], ['0'], ['0'], []⟩, 0)

/-- Value constraints under which a parameter word is exactly 64 hex
chars: an address of at most 64 digits after the optional `0x`, a uint256
value inside the unsigned 256-bit range, and a bytes32 payload of at most
64 hex chars (at most 32 bytes of data). -/
def wellFormedParam : AbiParam → Prop
  | .address s => (if starts0x s then s.drop 2 else s).length ≤ 64
  | .uint256 v => 0 ≤ v ∧ v < 2 ^ 256
  | .bytes32 s => (if starts0x s then s.drop 2 else bufferHex s).length ≤ 64

instance : DecidablePred wellFormedParam := fun p => by
  unfold wellFormedParam
  cases p <;> infer_instance

/-- Digit values of the decimal rendering of `n`, most-significant first
(proof-side companion of `natToChars 10`). -/
def natVals (n : Nat) : List Nat :=
  if n = 0 then [0] else (Nat.digits 10 n).reverse

theorem toDigitsAux_eq (b : Nat) (hb : 2 ≤ b) :
    ∀ fuel n, n ≤ fuel → toDigitsAux b fuel n = Nat.digits b n := by
  intro fuel
  induction fuel with
  | zero =>
    intro n hn
    have h0 : n = 0 := Nat.le_zero.mp hn
    subst h0
    simp [toDigitsAux]
  | succ fuel ih =>
    intro n hn
    cases n with
    | zero => simp [toDigitsAux]
    | succ m =>
      have h1 : (m + 1) / b < m + 1 := Nat.div_lt_self (Nat.succ_pos m) hb
      have h2 : (m + 1) / b ≤ fuel := Nat.lt_succ_iff.mp (lt_of_lt_of_le h1 hn)
      rw [show toDigitsAux b (fuel + 1) (m + 1)
            = ((m + 1) % b) :: toDigitsAux b fuel ((m + 1) / b) from rfl,
        ih _ h2, Nat.digits_def' (hb : 1 < b) (Nat.succ_pos m)]

theorem natDigits_eq (b : Nat) (hb : 2 ≤ b) (n : Nat) : natDigits b n = Nat.digits b n :=
  toDigitsAux_eq b hb n n le_rfl

theorem parseAcc_eq (b : Nat) (dv : Char → Option Nat) :
    ∀ (l : List Char) (vs : List Nat), l.map dv = vs.map some →
      ∀ a, parseAcc b dv a l = some (a * b ^ l.length + Nat.ofDigits b vs.reverse) := by
  intro l
  induction l with
  | nil =>
    intro vs h a
    have hvs : vs = [] := by cases vs <;> simp_all
    subst hvs
    simp [parseAcc, Nat.ofDigits_nil]
  | cons c cs ih =>
    intro vs h a
    cases vs with
    | nil => simp at h
    | cons v vt =>
      rw [List.map_cons, List.map_cons, List.cons.injEq] at h
      obtain ⟨h1, h2⟩ := h
      have hlen : cs.length = vt.length := by
        have h3 := congrArg List.length h2
        simpa using h3
      calc parseAcc b dv a (c :: cs) = parseAcc b dv (b * a + v) cs := by
            simp [parseAcc, h1]
        _ = some ((b * a + v) * b ^ cs.length + Nat.ofDigits b vt.reverse) := ih vt h2 _
        _ = some (a * b ^ (c :: cs).length + Nat.ofDigits b (v :: vt).reverse) := by
            congr 1
            rw [List.reverse_cons, Nat.ofDigits_append, List.length_cons,
              List.length_reverse, ← hlen, Nat.ofDigits_singleton, pow_succ]
            ring

theorem decVal_digitChar (d : Nat) (h : d < 10) : decVal (Nat.digitChar d) = some d := by
  interval_cases d <;> decide

theorem hexVal_digitChar (d : Nat) (h : d < 16) : hexVal (Nat.digitChar d) = some d := by
  interval_cases d <;> decide

theorem digitChar_ne_dot (d : Nat) (h : d < 16) : Nat.digitChar d ≠ '.' := by
  interval_cases d <;> decide

theorem digitChar_ne_dash (d : Nat) (h : d < 16) : Nat.digitChar d ≠ '-' := by
  interval_cases d <;> decide

theorem ofDigits_natVals (n : Nat) : Nat.ofDigits 10 (natVals n).reverse = n := by
  unfold natVals
  by_cases h : n = 0
  · subst h; simp
  · rw [if_neg h, List.reverse_reverse, Nat.ofDigits_digits]

theorem map_decVal_natToChars (n : Nat) :
    (natToChars 10 n).map decVal = (natVals n).map some := by
  unfold natToChars natVals
  by_cases h : n = 0
  · subst h; decide
  · rw [if_neg h, if_neg h, natDigits_eq 10 (by norm_num) n, List.map_map]
    apply List.map_congr_left
    intro d hd
    have hlt : d < 10 := Nat.digits_lt_base (by norm_num) (List.mem_reverse.mp hd)
    simpa using decVal_digitChar d hlt

theorem natToChars_length_le (b n k : Nat) (hb : 2 ≤ b) (hk : 1 ≤ k) (h : n < b ^ k) :
    (natToChars b n).length ≤ k := by
  unfold natToChars
  by_cases h0 : n = 0
  · subst h0; simpa using hk
  · rw [if_neg h0, natDigits_eq b hb n, List.length_map, List.length_reverse]
    have h1 : Nat.log b n < k := (Nat.lt_pow_iff_log_lt hb h0).mp h
    rw [Nat.digits_len b n hb h0]
    omega

theorem mem_natToChars_ten (c : Char) (n : Nat) (h : c ∈ natToChars 10 n) :
    ∃ d, d < 10 ∧ c = Nat.digitChar d := by
  unfold natToChars at h
  by_cases h0 : n = 0
  · subst h0
    simp only [if_pos rfl, List.mem_singleton] at h
    exact ⟨0, by norm_num, by simpa using h⟩
  · rw [if_neg h0, natDigits_eq 10 (by norm_num) n] at h
    simp only [List.mem_map, List.mem_reverse] at h
    obtain ⟨d, hd, rfl⟩ := h
    exact ⟨d, Nat.digits_lt_base (by norm_num) hd, rfl⟩

theorem natToChars_ne_nil (b n : Nat) : natToChars b n ≠ [] := by
  unfold natToChars
  by_cases h0 : n = 0
  · subst h0; simp
  · rw [if_neg h0]
    intro hcon
    have h1 := congrArg List.length hcon
    simp only [List.length_map, List.length_reverse, List.length_nil] at h1
    unfold natDigits at h1
    cases hn : n with
    | zero => exact h0 hn
    | succ m =>
      subst hn
      cases hb : b with
      | zero => rw [hb] at h1; simp [toDigitsAux] at h1
      | succ b2 => rw [hb] at h1; simp [toDigitsAux] at h1

theorem padStart_length (s : List Char) (n : Nat) (c : Char) (h : s.length ≤ n) :
    (padStart s n c).length = n := by
  unfold padStart
  rw [List.length_append, List.length_replicate]
  omega

theorem padEnd_length (s : List Char) (n : Nat) (c : Char) (h : s.length ≤ n) :
    (padEnd s n c).length = n := by
  unfold padEnd
  rw [List.length_append, List.length_replicate]
  omega

theorem trimEndZeros_length_le (s : List Char) : (trimEndZeros s).length ≤ s.length := by
  unfold trimEndZeros
  rw [List.length_reverse]
  calc (s.reverse.dropWhile (fun c => c = '0')).length
      ≤ s.reverse.length := List.Sublist.length_le (List.dropWhile_sublist _)
    _ = s.length := List.length_reverse s

theorem trimEndZeros_spec (s : List Char) :
    trimEndZeros s ++ List.replicate (s.length - (trimEndZeros s).length) '0' = s := by
  have hsplit := List.takeWhile_append_dropWhile (fun c => decide (c = '0')) s.reverse
  have htake : List.takeWhile (fun c => decide (c = '0')) s.reverse
      = List.replicate (List.takeWhile (fun c => decide (c = '0')) s.reverse).length '0' := by
    apply List.eq_replicate_of_mem
    intro x hx
    have hpx := List.mem_takeWhile_imp hx
    simpa using hpx
  have hlen : s.length - (trimEndZeros s).length
      = (List.takeWhile (fun c => decide (c = '0')) s.reverse).length := by
    have h1 := congrArg List.length hsplit
    rw [List.length_append, List.length_reverse] at h1
    unfold trimEndZeros
    rw [List.length_reverse]
    omega
  rw [hlen]
  unfold trimEndZeros
  calc (s.reverse.dropWhile (fun c => c = '0')).reverse
        ++ List.replicate (List.takeWhile (fun c => decide (c = '0')) s.reverse).length '0'
      = (s.reverse.dropWhile (fun c => c = '0')).reverse
        ++ (List.takeWhile (fun c => decide (c = '0')) s.reverse).reverse := by
        rw [← List.reverse_replicate, ← htake]
    _ = (List.takeWhile (fun c => decide (c = '0')) s.reverse
        ++ s.reverse.dropWhile (fun c => c = '0')).reverse := by
        rw [List.reverse_append]
    _ = s := by rw [hsplit, List.reverse_reverse]

theorem trimEndZeros_eq_nil_imp (s : List Char) (h : trimEndZeros s = []) :
    ∀ c ∈ s, c = '0' := by
  intro c hc
  have hs := trimEndZeros_spec s
  rw [h, List.nil_append] at hs
  rw [← hs] at hc
  exact (List.eq_of_mem_replicate hc)

theorem jsSplit_ne_nil (sep : Char) (s : List Char) : jsSplit sep s ≠ [] := by
  induction s with
  | nil => simp [jsSplit]
  | cons c cs ih =>
    by_cases h : c = sep
    · simp [jsSplit, h]
    · rw [jsSplit, if_neg h]
      cases hcs : jsSplit sep cs with
      | nil => simp
      | cons p ps => simp

theorem jsSplit_not_mem (sep : Char) (s : List Char) (h : sep ∉ s) : jsSplit sep s = [s] := by
  induction s with
  | nil => simp [jsSplit]
  | cons c cs ih =>
    have hc : ¬ c = sep := fun hcon => h (hcon ▸ List.mem_cons_self c cs)
    have hcs : sep ∉ cs := fun hcon => h (List.mem_cons_of_mem c hcon)
    rw [jsSplit, if_neg hc, ih hcs]

theorem jsSplit_append (sep : Char) (A B : List Char) (hA : sep ∉ A) :
    jsSplit sep (A ++ sep :: B) = A :: jsSplit sep B := by
  induction A with
  | nil => simp [jsSplit]
  | cons c cs ih =>
    have hc : ¬ c = sep := fun hcon => hA (hcon ▸ List.mem_cons_self c cs)
    have hcs : sep ∉ cs := fun hcon => hA (List.mem_cons_of_mem c hcon)
    rw [List.cons_append, jsSplit, if_neg hc, ih hcs]

/-- C1: the claim states that `getFunctionSelector` never silently returns
the all-zero selector for a signature outside the precomputed set. The
code refutes this: the signature `foo(uint256)` is not in the table, and
the selector resolver returns the all-zero selector `0x00000000` for it
without any failure. -/
theorem getFunctionSelector_unknown_all_zero :
    lookupSelector precomputedSelectors
        (signatureOf (strChars ("foo")) [strChars ("uint256")]) = none ∧
    getFunctionSelector (strChars ("foo")) [strChars ("uint256")]
      = strChars ("0x00000000") := by decide

/-- C2: the claim states that every decode operation fails with a decode
error when the stripped response is shorter than `byteOffset + 32` bytes.
The code refutes this: on the 1-byte response `0x12` (stripped length 2,
far short of 64 hex chars) all three decoders silently return the value 18
computed from the truncated word instead of failing. -/
theorem decode_short_response_silently_succeeds :
    (strip0x (strChars ("0x12"))).length = 2 ∧
    decodeUint256 (strChars ("0x12")) 0 = some 18 ∧
    decodeUint32 (strChars ("0x12")) 0 = some 18 ∧
    decodeInt224 (strChars ("0x12")) = some 18 := by decide

/-- C4: the claim states that the decimal formatters place the minus sign
on the integer part only, never inside the fractional digits. The code
refutes this: for the raw value negative 5 times 10 to the 17th with 18
decimals, all three formatters emit the sign inside the fractional
segment (the integer part is 0), and for negative 1.5 the sign appears in
both parts. -/
theorem negative_sign_leaks_into_fraction :
    formatValue (-(5 * 10 ^ 17)) 18 = strChars ("0.-500000000000000000") ∧
    formatWithDecimals (-(5 * 10 ^ 17)) 18 = strChars ("0.-5") ∧
    weiToEther (-(5 * 10 ^ 17)) = strChars ("0.-5") ∧
    formatValue (-(15 * 10 ^ 17)) 18 = strChars ("-1.-500000000000000000") := by decide

/-- C6: the claim states that encoding a negative or over-256-bit value as
uint256 fails. The code refutes this: `encodeUint256` never fails; for
negative one it returns a 64-char word containing a minus sign, and for 2
to the 256th it returns a 65-char string; in-range values do produce the
left-zero-padded 64-char hex word. -/
theorem encodeUint256_never_fails_out_of_range :
    encodeUint256 (-1) = List.replicate 62 '0' ++ ['-', '1'] ∧
    (encodeUint256 (-1)).length = 64 ∧
    (encodeUint256 (2 ^ 256)).length = 65 ∧
    encodeUint256 1 = List.replicate 63 '0' ++ ['1'] := by decide

/-- C9: the claim states that read-path domain helpers never swallow a
core failure and return a zero value as if the read succeeded. The code
refutes this for the multiple-feed read: with a transport whose every call
fails, `readDataFeedById` propagates the RPC error, yet
`getMultipleFeedsOperation` catches it and emits a row with value 0,
timestamp 0 and formatted value 0 for the failed feed; by contrast
`getTokenBalance` does propagate the failure. -/
theorem getMultipleFeeds_returns_zero_row_on_failure :
    readDataFeedById ⟨fun _ _ => .error (strChars ("rpc down"))⟩ (strChars ("ethereum"))
        ('0' :: 'x' :: List.replicate 64 'a')
      = .error (.rpcError (strChars ("rpc down"))) ∧
    getMultipleFeedsOperation ⟨fun _ _ => .error (strChars ("rpc down"))⟩
        (strChars ("ethereum")) ('0' :: 'x' :: List.replicate 64 'a')
      = [⟨'0' :: 'x' :: List.replicate 64 'a', ['0'], 0, ['0'], 18⟩] ∧
    getTokenBalance ⟨fun _ _ => .error (strChars ("rpc down"))⟩ (strChars ("0xtoken"))
        ('0' :: 'x' :: List.replicate 40 'a')
      = .error (.rpcError (strChars ("rpc down"))) := by decide

/-- C10: for an unrecognized networkId the explorer-URL helpers return the
empty string (they do not fail), while `getNetworkConfig` throws for the
same key; for a recognized networkId they return the explorer base URL
joined with the tx or address path. -/
theorem explorer_urls_vs_getNetworkConfig (network txHash address : List Char) :
    (NETWORK_CONFIGS network = none →
      getExplorerTxUrl network txHash = [] ∧
      getExplorerAddressUrl network address = [] ∧
      getNetworkConfig network
        = Except.error (strChars ("Unsupported network: ") ++ network)) ∧
    (∀ config, NETWORK_CONFIGS network = some config →
      getExplorerTxUrl network txHash
        = config.explorerUrl ++ strChars ("/tx/") ++ txHash ∧
      getExplorerAddressUrl network address
        = config.explorerUrl ++ strChars ("/address/") ++ address ∧
      getNetworkConfig network = Except.ok config) := by
  constructor
  · intro h
    refine ⟨?_, ?_, ?_⟩ <;>
      simp [getExplorerTxUrl, getExplorerAddressUrl, getNetworkConfig, h]
  · intro config h
    refine ⟨?_, ?_, ?_⟩ <;>
      simp [getExplorerTxUrl, getExplorerAddressUrl, getNetworkConfig, h]

/-- Witness for C10 at the unknown key foochain and the known key
ethereum. -/
theorem explorer_urls_witness :
    getExplorerTxUrl (strChars ("foochain")) (strChars ("0xabc")) = [] ∧
    getNetworkConfig (strChars ("foochain"))
      = Except.error (strChars ("Unsupported network: ") ++ strChars ("foochain")) ∧
    getExplorerTxUrl (strChars ("ethereum")) (strChars ("0xabc"))
      = strChars ("https://etherscan.io/tx/0xabc") := by
  have h1 := (explorer_urls_vs_getNetworkConfig (strChars ("foochain")) (strChars ("0xabc"))
    (strChars ("0xdef"))).1 (by decide)
  have h2 := (explorer_urls_vs_getNetworkConfig (strChars ("ethereum")) (strChars ("0xabc"))
    (strChars ("0xdef"))).2 ethereumConfig (by decide)
  exact ⟨h1.1, h1.2.2, h2.1.trans (by decide)⟩

theorem lookupSelector_length (tbl : List (List Char × List Char)) (input v : List Char)
    (htbl : ∀ p ∈ tbl, (p.2).length = 10) (h : lookupSelector tbl input = some v) :
    v.length = 10 := by
  induction tbl with
  | nil => simp [lookupSelector] at h
  | cons kv rest ih =>
    obtain ⟨k, v2⟩ := kv
    rw [lookupSelector] at h
    by_cases hk : input = k
    · rw [if_pos hk, Option.some.injEq] at h
      rw [← h]
      exact htbl (k, v2) (List.mem_cons_self _ _)
    · rw [if_neg hk] at h
      exact ih (fun p hp => htbl p (List.mem_cons_of_mem _ hp)) h

theorem simpleKeccak256_length (input : List Char) : (simpleKeccak256 input).length = 10 := by
  unfold simpleKeccak256
  cases h : lookupSelector precomputedSelectors input with
  | none => decide
  | some v =>
    simp only [Option.getD_some]
    exact lookupSelector_length precomputedSelectors input v (by decide) h

theorem getFunctionSelector_length (functionName : List Char) (types : List (List Char)) :
    (getFunctionSelector functionName types).length = 10 := by
  unfold getFunctionSelector jsSlice
  rw [List.drop_zero, List.length_take, simpleKeccak256_length]
  simp

theorem encodeParam_length (p : AbiParam) (h : wellFormedParam p) :
    (encodeParam p).length = 64 := by
  cases p with
  | address s =>
    unfold wellFormedParam at h
    show (encodeAddress s).length = 64
    unfold encodeAddress
    apply padStart_length
    rw [List.length_map]
    exact h
  | uint256 v =>
    obtain ⟨h0, h1⟩ := h
    show (encodeUint256 v).length = 64
    unfold encodeUint256 intHexChars
    rw [if_neg (not_lt.mpr h0)]
    apply padStart_length
    have hbound : v.toNat < 16 ^ 64 := by
      have h2 : ((2 ^ 256 : Nat) : Int) = 2 ^ 256 := by norm_cast
      have h3 : (16 : Nat) ^ 64 = 2 ^ 256 := by norm_num
      rw [h3]
      omega
    have hb16 : (2 : Nat) ≤ 16 := by norm_num
    have hk64 : (1 : Nat) ≤ 64 := by norm_num
    exact natToChars_length_le 16 v.toNat 64 hb16 hk64 hbound
  | bytes32 s =>
    simp only [wellFormedParam] at h
    show (encodeBytes32 s).length = 64
    unfold encodeBytes32
    by_cases hs : starts0x s
    · simp only [hs, if_true] at h ⊢
      exact padEnd_length _ _ _ h
    · simp only [hs, if_false, Bool.false_eq_true] at h ⊢
      exact padEnd_length _ _ _ h

theorem encodeParameters_length (params : List AbiParam) :
    (∀ p ∈ params, wellFormedParam p) →
    (encodeParameters params).length = 64 * params.length := by
  induction params with
  | nil => intro _; simp [encodeParameters]
  | cons p ps ih =>
    intro h
    have hp := h p (List.mem_cons_self p ps)
    have hps := fun q hq => h q (List.mem_cons_of_mem p hq)
    simp only [encodeParameters, List.map_cons, List.flatten_cons, List.length_append]
    simp only [encodeParameters] at ih
    rw [encodeParam_length p hp, ih hps, List.length_cons]
    ring

/-- C5 (amended): for every function name and parameter list over the
tags address, uint256 and bytes32 whose values are well formed for their
tags (address of at most 64 hex digits after the optional prefix, uint256
value in the unsigned 256-bit range, bytes32 payload of at most 32
bytes), the produced call data has exactly 10 + 64 N characters: the
prefixed 8-hex-char selector followed by one 64-char word per
parameter. -/
theorem encodeFunctionCall_length (functionName : List Char) (params : List AbiParam)
    (h : ∀ p ∈ params, wellFormedParam p) :
    (encodeFunctionCall functionName params).length = 10 + 64 * params.length := by
  unfold encodeFunctionCall
  rw [List.length_append, getFunctionSelector_length, encodeParameters_length params h]

/-- Witness for C5 at a two-parameter transfer call. -/
theorem encodeFunctionCall_length_witness :
    (encodeFunctionCall (strChars ("transfer"))
        [AbiParam.address (strChars ("0x742d35Cc6634C0532925a3b844Bc9e7595f1dE00")),
          AbiParam.uint256 1000]).length = 10 + 64 * 2 :=
  encodeFunctionCall_length _ _ (by decide)

/-- C5 counterexample: the claim as stated (for every matching value list)
fails. A bytes32 parameter given the 33-char plain string of 33 capital A
chars is a matching value for its tag, yet its UTF-8 hex form is 66 chars,
the right-pad does nothing, and the call data has 76 characters instead of
10 + 64. -/
theorem encodeFunctionCall_length_counterexample :
    (encodeFunctionCall (strChars ("foo")) [AbiParam.bytes32 (List.replicate 33 'A')]).length
        = 76 ∧ (76 : Nat) ≠ 10 + 64 * 1 := by decide

theorem jsSlice_take_drop (s : List Char) (a b : Nat) :
    jsSlice s a b = (s.drop a).take (b - a) := by
  unfold jsSlice
  rw [List.drop_take]

theorem flatten_drop_words (i : Nat) : ∀ (ws : List (List Char)),
    (∀ w ∈ ws, w.length = 64) → (ws.flatten).drop (64 * i) = (ws.drop i).flatten := by
  induction i with
  | zero => intro ws _; simp
  | succ j ih =>
    intro ws h
    cases ws with
    | nil => simp
    | cons w rest =>
      have hw : w.length = 64 := h w (List.mem_cons_self w rest)
      have hrest := fun q hq => h q (List.mem_cons_of_mem w hq)
      rw [List.flatten_cons, show 64 * (j + 1) = w.length + 64 * j from by rw [hw]; ring,
        List.drop_append, ih rest hrest]
      simp

/-- C7 (amended): the offset parameter of the unsigned decoders counts hex
characters of the stripped response, not bytes: for a response made of
64-char words, the decoders at offset 64 i extract word number i
unchanged, and the declared default offset of `decodeUint32` is 64 hex
chars, i.e. word number 1, which is byte offset 32. -/
theorem decode_offset_is_char_offset (ws : List (List Char))
    (h : ∀ w ∈ ws, w.length = 64) (i : Nat) (hi : i < ws.length) :
    decodeUint256 (strChars ("0x") ++ ws.flatten) (64 * i)
        = (jsBigIntHex (ws.get ⟨i, hi⟩)).map Int.ofNat ∧
    decodeUint32 (strChars ("0x") ++ ws.flatten) (64 * i)
        = (jsBigIntHex (ws.get ⟨i, hi⟩)).map Int.ofNat ∧
    decodeUint32AtDefault (strChars ("0x") ++ ws.flatten)
        = decodeUint32 (strChars ("0x") ++ ws.flatten) (64 * 1) := by
  have hstrip : strip0x (strChars ("0x") ++ ws.flatten) = ws.flatten := rfl
  have hword : jsSlice (ws.flatten) (64 * i) (64 * i + 64) = ws.get ⟨i, hi⟩ := by
    rw [jsSlice_take_drop, Nat.add_sub_cancel_left, flatten_drop_words i ws h,
      List.drop_eq_getElem_cons hi, List.flatten_cons]
    have hlen : (ws.get ⟨i, hi⟩).length = 64 := h _ (List.get_mem ws i hi)
    rw [show ws[i] = ws.get ⟨i, hi⟩ from rfl, ← hlen, List.take_left]
  refine ⟨?_, ?_, ?_⟩
  · unfold decodeUint256
    rw [hstrip, hword]
  · unfold decodeUint32
    rw [hstrip, hword]
  · rfl

/-- Witness for C7 at a concrete two-word response. -/
theorem decode_offset_witness :
    decodeUint256 (strChars ("0x") ++ [List.replicate 64 '0', List.replicate 63 '0' ++ ['7']].flatten)
        (64 * 1)
      = (jsBigIntHex (List.replicate 63 '0' ++ ['7'])).map Int.ofNat := by
  have h := (decode_offset_is_char_offset
    [List.replicate 64 '0', List.replicate 63 '0' ++ ['7']] (by decide) 1 (by decide)).1
  exact h.trans (by decide)

/-- C7 counterexample: the claim as stated (the word begins at character
position 2 k for offset argument k) fails. On a stripped response of 68
chars whose single nonzero digit sits at the end, `decodeUint256` at
offset argument 2 reads the all-zero word starting at char 2 and returns
0, while the word starting at char 2 times 2 has value 1. -/
theorem decode_offset_counterexample :
    decodeUint256 ('0' :: 'x' :: (List.replicate 67 '0' ++ ['1'])) 2 = some 0 ∧
    (jsBigIntHex (jsSlice (strip0x ('0' :: 'x' :: (List.replicate 67 '0' ++ ['1'])))
        (2 * 2) (2 * 2 + 64))).map Int.ofNat = some 1 := by decide

/-- C8: the staking and governance feature predicates hold exactly for the
network identity string ethereum, and every staking or governance read
handler invoked with any other network identifier (with an otherwise valid
address parameter where one is required) fails with the
unsupported-network error having issued zero transport round trips. -/
theorem staking_governance_guarded (t : EthTransport)
    (apiProposals : Except (List Char) (Option (List RawProposal)))
    (apiProposal : Except (List Char) RawProposal)
    (apiVotes : Except (List Char) (Option (List VoteRecord)))
    (now : Int) (network userAddress proposalId status : List Char) (limit : Nat)
    (hnet : network ≠ strChars ("ethereum"))
    (haddr : isValidAddress userAddress = true) :
    (∀ n, supportsStaking n = true ↔ n = strChars ("ethereum")) ∧
    (∀ n, supportsDAO n = true ↔ n = strChars ("ethereum")) ∧
    getStakingInfoOperation t network = (.error (.unsupportedNetwork network), 0) ∧
    getUserStakeOperation t network userAddress
      = (.error (.unsupportedNetwork network), 0) ∧
    getRewardsOperation t network userAddress
      = (.error (.unsupportedNetwork network), 0) ∧
    getAPROperation t network = (.error (.unsupportedNetwork network), 0) ∧
    getProposalsOperation apiProposals now network status limit
      = (.error (.unsupportedNetwork network), 0) ∧
    getProposalOperation apiProposal t network proposalId
      = (.error (.unsupportedNetwork network), 0) ∧
    getVoteRecordOperation apiVotes network userAddress
      = (.error (.unsupportedNetwork network), 0) ∧
    getTreasuryOperation t network = (.error (.unsupportedNetwork network), 0) := by
  have hstake : supportsStaking network = false := by
    unfold supportsStaking
    exact beq_eq_false_iff_ne.mpr hnet
  have hdao : supportsDAO network = false := by
    unfold supportsDAO
    exact beq_eq_false_iff_ne.mpr hnet
  refine ⟨fun n => ?_, fun n => ?_, ?_, ?_, ?_, ?_, ?_, ?_, ?_, ?_⟩
  · unfold supportsStaking; exact beq_iff_eq
  · unfold supportsDAO; exact beq_iff_eq
  · simp [getStakingInfoOperation, hstake]
  · simp [getUserStakeOperation, haddr, hstake]
  · simp [getRewardsOperation, haddr, hstake]
  · simp [getAPROperation, hstake]
  · simp [getProposalsOperation, hdao]
  · simp [getProposalOperation, hdao]
  · simp [getVoteRecordOperation, hdao]
  · simp [getTreasuryOperation, hdao]

/-- Witness for C8 on the polygon network with a valid user address and a
transport that would answer every request. -/
theorem staking_governance_guarded_witness :
    getStakingInfoOperation ⟨fun _ _ => Except.error []⟩ (strChars ("polygon"))
      = (.error (.unsupportedNetwork (strChars ("polygon"))), 0) ∧
    getUserStakeOperation ⟨fun _ _ => Except.error []⟩ (strChars ("polygon"))
        ('0' :: 'x' :: List.replicate 40 'a')
      = (.error (.unsupportedNetwork (strChars ("polygon"))), 0) ∧
    getProposalsOperation (Except.error []) 0 (strChars ("polygon")) (strChars ("all")) 5
      = (.error (.unsupportedNetwork (strChars ("polygon"))), 0) ∧
    getTreasuryOperation ⟨fun _ _ => Except.error []⟩ (strChars ("polygon"))
      = (.error (.unsupportedNetwork (strChars ("polygon"))), 0) := by
  have h := staking_governance_guarded ⟨fun _ _ => Except.error []⟩ (Except.error [])
    (Except.error []) (Except.error []) 0 (strChars ("polygon"))
    ('0' :: 'x' :: List.replicate 40 'a') (strChars ("1")) (strChars ("all")) 5
    (by decide) (by decide)
  exact ⟨h.2.2.1, h.2.2.2.1, h.2.2.2.2.2.2.1, h.2.2.2.2.2.2.2.2.2⟩

theorem ofDigits_replicate_zero (b d : Nat) : Nat.ofDigits b (List.replicate d 0) = 0 := by
  induction d with
  | zero => simp
  | succ k ih => rw [List.replicate_succ, Nat.ofDigits_cons, ih]; simp

theorem intDecChars_natCast (m : Nat) : intDecChars ((m : Nat) : Int) = natToChars 10 m := by
  unfold intDecChars
  rw [if_neg (not_lt.mpr (Int.natCast_nonneg m))]
  rw [Int.toNat_natCast]

theorem natVals_length (n : Nat) : (natVals n).length = (natToChars 10 n).length := by
  unfold natVals natToChars
  by_cases h : n = 0
  · simp [h]
  · rw [if_neg h, if_neg h, natDigits_eq 10 (by norm_num) n]
    simp

theorem mem_trimEndZeros (c : Char) (s : List Char) (h : c ∈ trimEndZeros s) : c ∈ s := by
  unfold trimEndZeros at h
  rw [List.mem_reverse] at h
  rw [← List.mem_reverse]
  exact (List.dropWhile_sublist _).mem h

theorem jsBigIntDec_digit_chars (l : List Char) (vs : List Nat)
    (h : l.map decVal = vs.map some) (hne : l ≠ []) :
    jsBigIntDec l = some ((Nat.ofDigits 10 vs.reverse : Nat) : Int) := by
  cases l with
  | nil => exact absurd rfl hne
  | cons c cs =>
    cases vs with
    | nil => simp at h
    | cons v vt =>
      have hmap := h
      rw [List.map_cons, List.map_cons, List.cons.injEq] at hmap
      obtain ⟨h1, _⟩ := hmap
      have hcdash : ¬ c = '-' := by
        intro hcon
        subst hcon
        simp [decVal] at h1
      rw [show jsBigIntDec (c :: cs)
            = (if c = '-' then
                (if cs = [] then none
                  else (parseAcc 10 decVal 0 cs).map (fun n => -(Int.ofNat n)))
              else (parseAcc 10 decVal 0 (c :: cs)).map Int.ofNat) from rfl,
        if_neg hcdash, parseAcc_eq 10 decVal (c :: cs) (v :: vt) h 0]
      simp

theorem slice_pad_single_zero (d : Nat) :
    jsSlice (padEnd ['0'] d '0') 0 d = List.replicate d '0' := by
  unfold padEnd jsSlice
  rw [List.drop_zero]
  cases d with
  | zero => simp
  | succ k =>
    rw [show ('0' : Char) :: [] ++ List.replicate (k + 1 - List.length ['0']) '0'
          = List.replicate (k + 1) '0' from by
        simp [List.replicate_succ]]
    exact List.take_of_length_le (by simp)

theorem formatWithDecimals_natCast (v d : Nat) :
    formatWithDecimals (v : Int) d
      = (if v % 10 ^ d = 0 then natToChars 10 (v / 10 ^ d)
          else natToChars 10 (v / 10 ^ d) ++ '.' ::
            trimEndZeros (padStart (natToChars 10 (v % 10 ^ d)) d '0')) := by
  have hpow : ((10 : Int) ^ d) = ((10 ^ d : Nat) : Int) := by push_cast; ring
  have hdiv : (v : Int).tdiv ((10 ^ d : Nat) : Int) = ((v / 10 ^ d : Nat) : Int) := rfl
  have hmod : (v : Int).tmod ((10 ^ d : Nat) : Int) = ((v % 10 ^ d : Nat) : Int) := rfl
  rw [show formatWithDecimals (v : Int) d
        = (if (v : Int).tmod ((10 : Int) ^ d) = 0 then
            intDecChars ((v : Int).tdiv ((10 : Int) ^ d))
          else
            intDecChars ((v : Int).tdiv ((10 : Int) ^ d)) ++ '.' ::
              trimEndZeros (padStart (intDecChars ((v : Int).tmod ((10 : Int) ^ d))) d '0'))
        from rfl,
    hpow, hdiv, hmod]
  by_cases h : v % 10 ^ d = 0
  · rw [if_pos h, if_pos (by rw [h]; simp : ((v % 10 ^ d : Nat) : Int) = 0),
      intDecChars_natCast]
  · rw [if_neg h,
      if_neg (fun hc => h (by exact_mod_cast hc) : ¬ ((v % 10 ^ d : Nat) : Int) = 0),
      intDecChars_natCast, intDecChars_natCast]

theorem parseWithDecimals_unfold (s : List Char) (d : Nat) :
    parseWithDecimals s d
      = jsBigIntDec (jsIndexOrZero (splitOnDot s) 0
          ++ jsSlice (padEnd (jsIndexOrZero (splitOnDot s) 1) d '0') 0 d) := rfl

theorem jsIndexOrZero_zero (A : List Char) (rest : List (List Char)) (hA : A ≠ []) :
    jsIndexOrZero (A :: rest) 0 = A := by
  unfold jsIndexOrZero
  simp [hA]

theorem jsIndexOrZero_one_nil (A : List Char) : jsIndexOrZero [A] 1 = ['0'] := by
  unfold jsIndexOrZero
  simp

theorem jsIndexOrZero_one (A B : List Char) (hB : B ≠ []) : jsIndexOrZero [A, B] 1 = B := by
  unfold jsIndexOrZero
  simp [hB]

/-- C3: for every non-negative arbitrary-precision integer `v` and every
decimal count `d` up to 18, parsing the formatted decimal string back
yields the original integer:
`parseWithDecimals (formatWithDecimals v d) d = v`. -/
theorem parseWithDecimals_roundtrip (v d : Nat) (hd : d ≤ 18) :
    parseWithDecimals (formatWithDecimals (v : Int) d) d = some (v : Int) := by
  rw [formatWithDecimals_natCast]
  have hnodotA : '.' ∉ natToChars 10 (v / 10 ^ d) := by
    intro hmem
    obtain ⟨dd, hdd, heq⟩ := mem_natToChars_ten _ _ hmem
    exact digitChar_ne_dot dd (by omega) heq.symm
  have hAne := natToChars_ne_nil 10 (v / 10 ^ d)
  by_cases h : v % 10 ^ d = 0
  · rw [if_pos h, parseWithDecimals_unfold,
      show splitOnDot (natToChars 10 (v / 10 ^ d)) = [natToChars 10 (v / 10 ^ d)] from
        jsSplit_not_mem '.' _ hnodotA,
      jsIndexOrZero_zero _ [] hAne, jsIndexOrZero_one_nil, slice_pad_single_zero,
      jsBigIntDec_digit_chars (natToChars 10 (v / 10 ^ d) ++ List.replicate d '0')
        (natVals (v / 10 ^ d) ++ List.replicate d 0) ?hmap ?hne]
    case hmap =>
      rw [List.map_append, List.map_append, map_decVal_natToChars, List.map_replicate,
        List.map_replicate, show decVal '0' = some 0 from rfl]
    case hne => simp [hAne]
    have hval : Nat.ofDigits 10 ((natVals (v / 10 ^ d) ++ List.replicate d 0).reverse) = v := by
      rw [List.reverse_append, List.reverse_replicate, Nat.ofDigits_append,
        ofDigits_replicate_zero, ofDigits_natVals, List.length_replicate]
      have hvm := Nat.div_add_mod v (10 ^ d)
      omega
    rw [hval]
  · rw [if_neg h, parseWithDecimals_unfold]
    set A := natToChars 10 (v / 10 ^ d) with hA
    set P := padStart (natToChars 10 (v % 10 ^ d)) d '0' with hP
    set T := trimEndZeros P with hT
    have hd1 : 1 ≤ d := by
      by_contra hcon
      have hd0 : d = 0 := by omega
      subst hd0
      simp [Nat.mod_one] at h
    have hrlt : v % 10 ^ d < 10 ^ d := Nat.mod_lt v (by positivity)
    have hlenr : (natToChars 10 (v % 10 ^ d)).length ≤ d :=
      natToChars_length_le 10 _ d (by norm_num) hd1 hrlt
    have hPlen : P.length = d := padStart_length _ _ _ hlenr
    have hTP : T ++ List.replicate (d - T.length) '0' = P := by
      have hspec := trimEndZeros_spec P
      rw [hPlen] at hspec
      exact hspec
    have hTlen : T.length ≤ d := hPlen ▸ trimEndZeros_length_le P
    set vsP := List.replicate (d - (natToChars 10 (v % 10 ^ d)).length) 0
        ++ natVals (v % 10 ^ d) with hvsP
    have hmapP : P.map decVal = vsP.map some := by
      rw [hP, hvsP]
      unfold padStart
      rw [List.map_append, List.map_append, List.map_replicate, List.map_replicate,
        map_decVal_natToChars, show decVal '0' = some 0 from rfl]
    have hvsPlen : vsP.length = d := by
      rw [hvsP, List.length_append, List.length_replicate, natVals_length]
      omega
    have hvalP : Nat.ofDigits 10 vsP.reverse = v % 10 ^ d := by
      rw [hvsP, List.reverse_append, List.reverse_replicate, Nat.ofDigits_append,
        ofDigits_replicate_zero, ofDigits_natVals]
      simp
    have hTne : T ≠ [] := by
      intro hcon
      have hallzero : ∀ c ∈ P, c = '0' := trimEndZeros_eq_nil_imp P (by rw [← hT]; exact hcon)
      have h1 : P.map decVal = List.replicate P.length (some 0) := by
        have hmem : ∀ x ∈ P.map decVal, x = some 0 := by
          intro x hx
          obtain ⟨c, hc, rfl⟩ := List.mem_map.mp hx
          rw [hallzero c hc]
          rfl
        have h2 := List.eq_replicate_of_mem hmem
        rw [List.length_map] at h2
        exact h2
      have h3 : vsP.map some = (List.replicate d 0).map some := by
        rw [← hmapP, h1, hPlen, List.map_replicate]
      have h4 : vsP = List.replicate d 0 :=
        List.map_injective_iff.mpr (fun a b hab => Option.some.inj hab) h3
      rw [h4, List.reverse_replicate, ofDigits_replicate_zero] at hvalP
      exact h hvalP.symm
    have hnodotT : '.' ∉ T := by
      intro hmem
      have hcP : '.' ∈ P := mem_trimEndZeros '.' P (by rw [← hT]; exact hmem)
      rw [hP] at hcP
      unfold padStart at hcP
      rcases List.mem_append.mp hcP with hmem1 | hmem2
      · exact absurd (List.eq_of_mem_replicate hmem1) (by decide)
      · obtain ⟨dd, hdd, heq⟩ := mem_natToChars_ten _ _ hmem2
        exact digitChar_ne_dot dd (by omega) heq.symm
    rw [show splitOnDot (A ++ '.' :: T) = [A, T] from by
        rw [show splitOnDot (A ++ '.' :: T) = jsSplit '.' (A ++ '.' :: T) from rfl,
          jsSplit_append '.' A T hnodotA, jsSplit_not_mem '.' T hnodotT],
      jsIndexOrZero_zero A [T] hAne, jsIndexOrZero_one A T hTne]
    have hfrac : jsSlice (padEnd T d '0') 0 d = P := by
      unfold padEnd jsSlice
      rw [List.drop_zero, hTP]
      exact List.take_of_length_le (by rw [hPlen])
    rw [hfrac,
      jsBigIntDec_digit_chars (A ++ P) (natVals (v / 10 ^ d) ++ vsP) ?hmap2 ?hne2]
    case hmap2 =>
      rw [List.map_append, List.map_append, hA, map_decVal_natToChars, hmapP]
    case hne2 => simp [hAne]
    have hval : Nat.ofDigits 10 ((natVals (v / 10 ^ d) ++ vsP).reverse) = v := by
      rw [List.reverse_append, Nat.ofDigits_append, List.length_reverse, hvsPlen, hvalP,
        ofDigits_natVals]
      have hvm := Nat.div_add_mod v (10 ^ d)
      omega
    rw [hval]

/-- Witness for C3 at the value 1234567 with 5 decimals (formatted string
12.34567). -/
theorem parseWithDecimals_roundtrip_witness :
    parseWithDecimals (formatWithDecimals ((1234567 : Nat) : Int) 5) 5
      = some ((1234567 : Nat) : Int) :=
  parseWithDecimals_roundtrip 1234567 5 (by norm_num)

end Api3

